import Mathlib

/-!
Verification of the plugin orchestration and wallpaper selection engine of
clockwork-orange: shallow embedding of the source-selection algorithm
(clockwork-orange.py), the process execution adapter (plugin_manager.py),
the streaming protocol handling (gui/plugins_tab.py), the schedule gate
(plugins/wallhaven.py), the history and blacklist stores
(plugins/history.py, plugins/blacklist.py) and the multi-monitor
compositor (platform_utils.py), together with proofs of the specified
properties.
-/

namespace ClockworkOrange

/-! ### String helpers modelling Python primitives

Python `str.split`, `str.strip`, `str.lower` and `int(...)` are modelled by
structurally recursive functions over the character list of a `String`, so
that every definition evaluates inside the kernel. `pyInt` models `int()`
on the ASCII decimal forms relevant here (optional sign, digits); `pyLower`
and `pyStrip` model the ASCII behaviour of `str.lower` / `str.strip`.
-/

/-- ASCII whitespace recognised by Python `str.strip`. -/
def isPySpace (c : Char) : Bool :=
  c == ' ' || c == '\t' || c == '\x0a' || c == '\x0d' || c == '\x0b' || c == '\x0c'

/-- Model of Python `str.strip()` (ASCII whitespace). -/
def pyStrip (s : String) : String :=
  String.mk (((s.data.dropWhile isPySpace).reverse.dropWhile isPySpace).reverse)

/-- If `pat` is a prefix of `s`, return the remainder of `s`. -/
def dropMatch? : List Char → List Char → Option (List Char)
  | [], s => some s
  | _ :: _, [] => none
  | p :: ps, c :: cs => if c == p then dropMatch? ps cs else none

/-- Fuel-driven worker for `pySplit`: scans `s`, cutting at each
non-overlapping occurrence of `pat` (Python `str.split(sep)` semantics). -/
def splitFuelAux (pat : List Char) : Nat → List Char → List Char → List (List Char)
  | 0, s, acc => [acc.reverse ++ s]
  | fuel + 1, s, acc =>
    match s with
    | [] => [acc.reverse]
    | c :: cs =>
      match dropMatch? pat (c :: cs) with
      | some rest => acc.reverse :: splitFuelAux pat fuel rest []
      | none => splitFuelAux pat fuel cs (c :: acc)

/-- Model of Python `s.split(pat)` for a non-empty separator `pat`. -/
def pySplit (s pat : String) : List String :=
  (splitFuelAux pat.data (s.data.length + 1) s.data []).map String.mk

/-- Model of Python `pat in s` (substring test): splitting on `pat`
yields at least two parts exactly when `pat` occurs in `s`. -/
def pyContains (s pat : String) : Bool :=
  2 ≤ (pySplit s pat).length

/-- Decimal digit value of a character, if it is one. -/
def digitVal? (c : Char) : Option Nat :=
  if '0' ≤ c && c ≤ '9' then some (c.toNat - '0'.toNat) else none

/-- Accumulating decimal reader; fails on any non-digit. -/
def digitsToNatAux : List Char → Nat → Option Nat
  | [], acc => some acc
  | c :: cs, acc =>
    match digitVal? c with
    | some d => digitsToNatAux cs (acc * 10 + d)
    | none => none

/-- Reads a non-empty all-digit character list as a natural number. -/
def digitsToNat? (cs : List Char) : Option Nat :=
  match cs with
  | [] => none
  | _ => digitsToNatAux cs 0

/-- Model of Python `int(s)` on ASCII decimal strings: strips whitespace,
allows one leading sign, then requires at least one digit. -/
def pyInt (s : String) : Option Int :=
  match (pyStrip s).data with
  | '-' :: cs => (digitsToNat? cs).map (fun n => -(n : Int))
  | '+' :: cs => (digitsToNat? cs).map (fun n => (n : Int))
  | cs => (digitsToNat? cs).map (fun n => (n : Int))

/-- ASCII lower-casing of one character. -/
def pyLowerChar (c : Char) : Char :=
  if 'A' ≤ c && c ≤ 'Z' then Char.ofNat (c.toNat + 32) else c

/-- Model of Python `str.lower()` on ASCII strings. -/
def pyLower (s : String) : String :=
  String.mk (s.data.map pyLowerChar)

/-- Decimal digits of a natural number (fuel-driven, most significant first). -/
def natDigitsAux : Nat → Nat → List Char
  | 0, _ => []
  | fuel + 1, n =>
    if n < 10 then [Char.ofNat (48 + n)]
    else natDigitsAux fuel (n / 10) ++ [Char.ofNat (48 + n % 10)]

/-- Decimal rendering of a natural number. -/
def natToStr (n : Nat) : String :=
  String.mk (natDigitsAux (n + 1) n)

/-- Decimal rendering of an integer (models Python string interpolation of an int). -/
def intToStr : Int → String
  | Int.ofNat n => natToStr n
  | Int.negSucc n => String.mk ('-' :: (natToStr (n + 1)).data)

/-- Model of reading a process stream with `readline()` until EOF
(plugin_manager.py, `execute_plugin_stream`): the text is cut at each
newline; a final segment after the last newline is kept, but the empty
segment produced by a trailing newline is not a line. -/
def readLines (s : String) : List String :=
  let parts := pySplit s "\n"
  if parts.getLast? = some "" then parts.dropLast else parts

/-! ### Streaming protocol events (gui/plugins_tab.py)

`PluginRunner._handle_log_line` emits a `log_signal` for every line, then
checks the `::PROGRESS::` and `::IMAGE_SAVED::` markers. The emitted Qt
signals are modelled as an ordered list of `Event`s.
-/

/-- A stream event emitted by the GUI plugin runner: a plain log line, a
progress report, or an announcement that an image artifact was saved. -/
inductive Event where
  | log (text : String)
  | progress (percent : Int) (message : String)
  | imageSaved (path : String)
deriving DecidableEq

/-- Model of `PluginRunner._parse_progress`: split the whole line on
`::`; with at least 4 parts and `int(parts[2].strip())` succeeding, emit
one `progress` event (any exception is swallowed, emitting nothing).
The percent is whatever integer was parsed; no range check is applied. -/
def parseProgressLine (line : String) : List Event :=
  let parts := pySplit line "::"
  if 4 ≤ parts.length then
    match pyInt (parts.getD 2 "") with
    | some p => [Event.progress p (pyStrip (parts.getD 3 ""))]
    | none => []
  else []

/-- Model of `PluginRunner._parse_image_saved`: split on the
`::IMAGE_SAVED::` marker and emit the stripped text that follows its
first occurrence. -/
def parseImageSavedLine (line : String) : List Event :=
  let parts := pySplit line "::IMAGE_SAVED::"
  if 2 ≤ parts.length then [Event.imageSaved (pyStrip (parts.getD 1 ""))] else []

/-- Model of `PluginRunner._handle_log_line`: every line is emitted as a
log event; then the progress marker and the image-saved marker are each
checked with a substring test. -/
def handleLogLine (line : String) : List Event :=
  Event.log line ::
    ((if pyContains line "::PROGRESS::" then parseProgressLine line else []) ++
     (if pyContains line "::IMAGE_SAVED::" then parseImageSavedLine line else []))

/-- Processing of a whole diagnostic stream, line by line and in order. -/
def handleLogLines : List String → List Event
  | [] => []
  | l :: ls => handleLogLine l ++ handleLogLines ls

/-! ### Fair source selection (clockwork-orange.py)

`get_random_image_from_sources` resolves the existing sources, shuffles
them, and scans them in shuffled order; the first source yielding a
candidate wins, and within a directory source `random.choice` picks among
its image files. The filesystem is a parameter `FS`; `random.shuffle` is
modelled by an arbitrary permutation function and `random.choice` by an
arbitrary index-choosing function (the chosen index is taken modulo the
candidate count, so every choice function denotes a valid pick).
-/

/-- Abstract filesystem view used by the selection algorithm:
`pathExists`/`isFile`/`isDir` model the `pathlib.Path` queries, `entries`
models `Path.iterdir()` (`none` models the scan raising, which the code
catches and treats as no candidate), and `extImage`/`mimeImage` model the
two image-file tests of `is_image_file` (extension in `IMAGE_EXTENSIONS`,
MIME type starting with `image/`). -/
structure FS where
  pathExists : String → Bool
  isFile : String → Bool
  isDir : String → Bool
  entries : String → Option (List String)
  extImage : String → Bool
  mimeImage : String → Bool

/-- Model of `is_image_file`: a regular file whose extension is a known
image extension or whose guessed MIME type is an image type. -/
def is_image_file (fs : FS) (p : String) : Bool :=
  fs.isFile p && (fs.extImage p || fs.mimeImage p)

/-- The candidate images a single source can contribute: the source
itself if it is an image file, or the image files directly inside it if
it is a directory (empty when the directory scan raises). -/
def candidatesOf (fs : FS) (s : String) : List String :=
  if fs.isFile s then
    if is_image_file fs s then [s] else []
  else if fs.isDir s then
    ((fs.entries s).getD []).filter (is_image_file fs)
  else []

/-- Model of `_select_candidate_from_source`: an image-file source yields
itself; a directory source yields `random.choice` of its image files when
there are any; a failing directory scan or anything else yields nothing. -/
def selectCandidateFromSource (fs : FS) (choose : List String → Nat) (s : String) :
    Option String :=
  if fs.isFile s then
    if is_image_file fs s then some s else none
  else if fs.isDir s then
    match fs.entries s with
    | none => none
    | some es =>
      let cands := es.filter (is_image_file fs)
      if cands.isEmpty then none
      else some (cands.getD (choose cands % cands.length) "")
  else none

/-- Model of `_gather_valid_sources`: keep the sources that exist on disk
(the code also resolves each path; resolution is modelled as the
identity). -/
def gatherValidSources (fs : FS) (sources : List String) : List String :=
  sources.filter fs.pathExists

/-- Model of `get_random_image_from_sources`: filter to existing sources
(`ValueError`, modelled as `none`, if none), shuffle them, and return the
candidate of the first source in shuffled order that yields one
(`ValueError` again if no source yields any). -/
def getRandomImageFromSources (fs : FS) (shuffle : List String → List String)
    (choose : List String → Nat) (sources : List String) : Option String :=
  let valid := gatherValidSources fs sources
  if valid.isEmpty then none
  else (shuffle valid).findSome? (selectCandidateFromSource fs choose)

/-- A concrete filesystem fixture used to witness the selection theorem:
`dirA` is a directory holding two images and one text file, `b.jpg` is a
single image file. -/
def fsTwoSources : FS :=
  ⟨fun p => p == "dirA" || p == "b.jpg",
   fun p => p == "b.jpg" || p == "dirA/1.jpg" || p == "dirA/2.jpg" || p == "dirA/notes.txt",
   fun p => p == "dirA",
   fun p => if p == "dirA" then some ["dirA/1.jpg", "dirA/2.jpg", "dirA/notes.txt"] else none,
   fun p => p == "b.jpg" || p == "dirA/1.jpg" || p == "dirA/2.jpg",
   fun _ => false⟩

/-! ### Process execution adapter (plugin_manager.py)

`PluginManager.execute_plugin` and `execute_plugin_stream` spawn the
plugin as a subprocess, read its stdout as one JSON result blob and carry
its stderr as diagnostics. The spawned process is modelled by the triple
`ProcOut` of exit code, stdout text and stderr text; `json.loads` is
modelled by an arbitrary parameter `parse` returning either a JSON object
(`PyObj.pdict`, an ordered string-keyed record) or any non-object JSON
value (`PyObj.other`), or failing (`none`, the `JSONDecodeError` case).
-/

/-- A Python value as it crosses the adapter boundary: a dict with
string-renderable fields, or any non-dict value. -/
inductive PyObj where
  | pdict (fields : List (String × String))
  | other (val : String)
deriving DecidableEq

/-- Python dict assignment `d[k] = v`: replace the value at an existing
key, otherwise append the pair (insertion order). -/
def setField (fields : List (String × String)) (k v : String) :
    List (String × String) :=
  if fields.any (fun f => f.1 == k) then
    fields.map (fun f => if f.1 == k then (k, v) else f)
  else fields ++ [(k, v)]

/-- Python dict lookup `d[k]` as an `Option`. -/
def getField (fields : List (String × String)) (k : String) : Option String :=
  (fields.find? (fun f => f.1 == k)).map (fun f => f.2)

/-- Observable outcome of the spawned plugin process: exit code, primary
channel (stdout) and diagnostic channel (stderr). -/
structure ProcOut where
  returncode : Int
  stdout : String
  stderr : String

/-- Model of `PluginManager.execute_plugin` (one-shot mode, non-frozen
path): missing plugin gives an error dict; `subprocess.run(check=True)`
raising `CalledProcessError` on a non-zero exit is caught and gives an
error dict carrying stderr as logs; otherwise stdout is JSON-decoded —
a decoded dict gets stderr attached under `logs` when stderr is
non-empty, a decoded non-dict is returned as is, and a decode failure
gives an error dict carrying stderr as logs. -/
def execute_plugin (parse : String → Option PyObj) (pluginFound : Bool)
    (proc : ProcOut) : PyObj :=
  if !pluginFound then
    PyObj.pdict [("status", "error"), ("message", "Plugin not found")]
  else if proc.returncode ≠ 0 then
    PyObj.pdict [("status", "error"),
      ("message", "Execution failed: " ++ proc.stderr),
      ("logs", proc.stderr)]
  else
    match parse proc.stdout with
    | some (PyObj.pdict fields) =>
      if proc.stderr ≠ "" then PyObj.pdict (setField fields "logs" proc.stderr)
      else PyObj.pdict fields
    | some (PyObj.other v) => PyObj.other v
    | none =>
      PyObj.pdict [("status", "error"),
        ("message", "Invalid output: " ++ proc.stdout),
        ("logs", proc.stderr),
        ("raw_output", proc.stdout)]

/-- Whether an adapter return value is a dictionary. -/
def isDict : PyObj → Bool
  | PyObj.pdict _ => true
  | PyObj.other _ => false

/-- An item yielded by the streaming adapter: a stripped stderr line, or
the terminal result value. -/
inductive StreamItem where
  | line (text : String)
  | result (obj : PyObj)
deriving DecidableEq

/-- Model of `PluginManager.execute_plugin_stream` (non-frozen path):
yield every stderr line stripped, then the terminal item — an error dict
when the exit code is non-zero, else the JSON-decoded stdout, else an
error dict on decode failure. A missing plugin yields a single error
dict. -/
def execute_plugin_stream (parse : String → Option PyObj) (pluginFound : Bool)
    (proc : ProcOut) : List StreamItem :=
  if !pluginFound then
    [StreamItem.result (PyObj.pdict [("status", "error"), ("message", "Plugin not found")])]
  else
    let lines := (readLines proc.stderr).map (fun l => StreamItem.line (pyStrip l))
    let final :=
      if proc.returncode ≠ 0 then
        StreamItem.result (PyObj.pdict [("status", "error"),
          ("message", "Plugin execution failed with code " ++ intToStr proc.returncode),
          ("logs", "See above logs")])
      else
        match parse proc.stdout with
        | some o => StreamItem.result o
        | none =>
          StreamItem.result (PyObj.pdict [("status", "error"),
            ("message", "Invalid JSON output: " ++ proc.stdout),
            ("logs", "See above logs")])
    lines ++ [final]

/-- Model of the `PluginRunner.run` consumption loop: every yielded
string is handed to `_handle_log_line`; the events are collected in
order. -/
def runnerLogEvents : List StreamItem → List Event
  | [] => []
  | StreamItem.line s :: rest => handleLogLine s ++ runnerLogEvents rest
  | StreamItem.result _ :: rest => runnerLogEvents rest

/-- Model of the `PluginRunner.run` final result: the last dict-typed
item yielded by the stream, if any. -/
def runnerFinal (items : List StreamItem) : Option PyObj :=
  items.foldl
    (fun acc it =>
      match it with
      | StreamItem.result o => some o
      | StreamItem.line _ => acc)
    none

/-! ### Schedule gate (plugins/wallhaven.py)

`WallhavenPlugin._should_run` reads a `.last_run` marker file from the
plugin's download directory and compares its age against the configured
interval class; `run` consults it unless `force` is set and otherwise
returns a no-op success naming the unchanged download directory. Time is
modelled in whole seconds.
-/

/-- State of the `.last_run` marker file: absent, unreadable or
unparseable (`float(...)` raising), or a parsed timestamp in seconds. -/
inductive Marker where
  | missing
  | corrupt
  | stamp (t : Int)
deriving DecidableEq

/-- Model of `WallhavenPlugin._should_run`: `always` runs; a missing or
corrupt marker means never-run, so the run proceeds; otherwise the
elapsed seconds are compared against the interval class, an unrecognised
class falling through to `False`. -/
def should_run (now : Int) (interval : String) (marker : Marker) : Bool :=
  if interval == "always" then true
  else
    match marker with
    | Marker.missing => true
    | Marker.corrupt => true
    | Marker.stamp t =>
      if interval == "hourly" then decide (3600 < now - t)
      else if interval == "daily" then decide (86400 < now - t)
      else if interval == "weekly" then decide (604800 < now - t)
      else false

/-- Whether a `run` invocation was suppressed by the schedule gate (with
its no-op success result) or went on to do real work. -/
inductive RunOutcome where
  | skipped (result : PyObj)
  | proceeded
deriving DecidableEq

/-- Model of the gate prefix of `WallhavenPlugin.run`: the configured
interval string is lower-cased; unless `force` is set, a negative
`_should_run` answer produces the no-op success result that reports the
unchanged download directory. -/
def wallhaven_run_gate (now : Int) (intervalCfg : String) (force : Bool)
    (marker : Marker) (downloadDir : String) : RunOutcome :=
  let interval := pyLower intervalCfg
  if !force && !(should_run now interval marker) then
    RunOutcome.skipped (PyObj.pdict [("status", "success"), ("path", downloadDir)])
  else RunOutcome.proceeded

/-! ### History store (plugins/history.py)

The `downloads` table has a `UNIQUE(url_hash)` constraint; it is modelled
as a row list, and the SQLite `IntegrityError` raised by a duplicate
insert as the presence test that guards it. The MD5 hashes and file
contents are abstract parameters (`hashUrl`, file reading as
`String → Option String`: `none` models a path that does not exist).
-/

/-- One row of the `downloads` table. -/
structure HRow where
  url_hash : String
  image_hash : String
  source : String
  timestamp : Int
deriving DecidableEq

/-- Result of one `add_entry` call: `raised` when `get_file_hash`'s
`open(filepath)` raises (missing or unreadable image path) — that
exception is not caught anywhere in `add_entry`, whose `try` block only
catches `sqlite3.IntegrityError` — or `returned` with the resulting
store and the inserted flag. -/
inductive AddEntryOutcome where
  | raised
  | returned (db : List HRow) (inserted : Bool)
deriving DecidableEq

/-- Model of `HistoryManager.add_entry`: derive the URL hash, then the
content hash by reading the file — `readFile imagePath = none` models
`open` raising, which propagates out of `add_entry` untouched, leaving
the store unchanged; otherwise insert, a duplicate `url_hash` violating
the unique constraint, which is caught and reported as `false` with the
store unchanged. -/
def add_entry (hashUrl hashBytes : String → String)
    (readFile : String → Option String) (db : List HRow)
    (url imagePath src : String) (now : Int) : AddEntryOutcome :=
  let uh := hashUrl url
  match readFile imagePath with
  | none => AddEntryOutcome.raised
  | some bytes =>
    let ih := hashBytes bytes
    if db.any (fun r => r.url_hash == uh) then AddEntryOutcome.returned db false
    else AddEntryOutcome.returned (db ++ [⟨uh, ih, src, now⟩]) true

/-- Model of `HistoryManager.seen_image`: a path that does not exist
(`readFile p = none`) answers `false` at once, before any hash
computation or store query; otherwise the store is probed for the content
hash of the file's bytes. -/
def seen_image (readFile : String → Option String) (hashBytes : String → String)
    (db : List HRow) (p : String) : Bool :=
  match readFile p with
  | none => false
  | some content => db.any (fun r => r.image_hash == hashBytes content)

/-! ### Blacklist store (plugins/blacklist.py)

The `blacklist` table is keyed by `img_hash` (primary key, upserted with
`INSERT OR REPLACE`). SHA-256 over the file bytes and thumbnail rendering
are abstract parameters; a connection that fails to open or query is
modelled by passing `none` for the store.
-/

/-- One row of the `blacklist` table. -/
structure BRow where
  img_hash : String
  source : String
  timestamp : Int
  thumbnail : Option String
deriving DecidableEq

/-- Model of `BlacklistManager.get_image_hash`: SHA-256 of the file's
bytes, or `none` when reading raises (missing file). -/
def get_image_hash (sha : String → String) (readFile : String → Option String)
    (p : String) : Option String :=
  (readFile p).map sha

/-- Model of `BlacklistManager.add_to_blacklist`: with a file path that
exists, a missing hash argument is derived from the file's bytes and a
thumbnail is rendered; without any hash the call is a logged no-op;
otherwise `INSERT OR REPLACE` removes any row with the same hash and
appends the new row. -/
def add_to_blacklist (sha : String → String) (readFile : String → Option String)
    (thumb : String → Option String) (db : List BRow) (imageHashArg : Option String)
    (pluginName : String) (filePathArg : Option String) (now : Int) : List BRow :=
  let derived : Option String × Option String :=
    match filePathArg with
    | some p =>
      if (readFile p).isSome then
        (match imageHashArg with
         | some h => some h
         | none => get_image_hash sha readFile p,
         thumb p)
      else (imageHashArg, none)
    | none => (imageHashArg, none)
  match derived.1 with
  | none => db
  | some h => db.filter (fun r => !(r.img_hash == h)) ++ [⟨h, pluginName, now, derived.2⟩]

/-- Model of `BlacklistManager.is_blacklisted`: a store operation that
raises (`conn = none`) is caught and answers `false` (fail-open);
otherwise a point lookup on the hash. -/
def is_blacklisted (conn : Option (List BRow)) (image_hash : String) : Bool :=
  match conn with
  | none => false
  | some db => db.any (fun r => r.img_hash == image_hash)

/-- Model of `BlacklistManager.remove_from_blacklist`: delete every row
with the given hash. -/
def remove_from_blacklist (db : List BRow) (image_hash : String) : List BRow :=
  db.filter (fun r => !(r.img_hash == image_hash))

/-! ### Multi-monitor compositor (platform_utils.py)

`set_wallpaper_multi_monitor` (Windows spanned-wallpaper branch) builds
the bounding box of all monitor rectangles, pastes each processed image
at its monitor's offset, and saves/applies the canvas. Image decoding and
cover-fit processing of one path is abstracted into a success predicate
`processOk`; a failing path is logged and skipped, leaving that monitor's
area blank. The outcome records whether anything was written and the
exact paste rectangles.
-/

/-- One monitor rectangle in virtual-desktop coordinates. -/
structure Monitor where
  x : Int
  y : Int
  w : Int
  h : Int
deriving DecidableEq

/-- One paste operation on the canvas: offset and pasted size. -/
structure Paste where
  ox : Int
  oy : Int
  pw : Int
  ph : Int
deriving DecidableEq

/-- Python `min` over a non-empty list (0 for the empty list, which the
code rules out before calling it). -/
def minList : List Int → Int
  | [] => 0
  | a :: rest => rest.foldl min a

/-- Python `max` over a non-empty list. -/
def maxList : List Int → Int
  | [] => 0
  | a :: rest => rest.foldl max a

/-- The per-monitor paste loop: the i-th monitor takes the i-th valid
path (`break` once paths run out); a path whose processing fails is
logged and skipped, every other monitor still being pasted at
`(monitor.x - minx, monitor.y - miny)` with the monitor's exact size. -/
def pasteLoop (processOk : String → Bool) (minx miny : Int) :
    List String → List Monitor → List Paste
  | _, [] => []
  | [], _ :: _ => []
  | p :: ps, m :: rest =>
    if processOk p then
      ⟨m.x - minx, m.y - miny, m.w, m.h⟩ :: pasteLoop processOk minx miny ps rest
    else pasteLoop processOk minx miny ps rest

/-- Outcome of the composite: an early `return False` with nothing
written, or a saved-and-applied canvas of the given size with the given
pastes. -/
inductive CompositeOutcome where
  | failed (msg : String)
  | written (cw ch : Int) (pastes : List Paste)
deriving DecidableEq

/-- Model of `set_wallpaper_multi_monitor` (Windows spanned branch): fail
with nothing written when no paths are provided, when no provided path
exists, or when no monitor is detected; otherwise compute the bounding
rectangle of the monitor union, run the paste loop, and save and apply
the canvas — unconditionally, even when every paste failed. -/
def set_wallpaper_multi_monitor (pathExists processOk : String → Bool)
    (monitors : List Monitor) (image_paths : List String) : CompositeOutcome :=
  if image_paths.isEmpty then CompositeOutcome.failed "no image paths provided"
  else
    let abs_paths := image_paths.filter pathExists
    if abs_paths.isEmpty then CompositeOutcome.failed "no valid image paths found"
    else if monitors.isEmpty then CompositeOutcome.failed "no monitors detected"
    else
      let minx := minList (monitors.map fun m => m.x)
      let miny := minList (monitors.map fun m => m.y)
      let cw := maxList (monitors.map fun m => m.x + m.w) - minx
      let ch := maxList (monitors.map fun m => m.y + m.h) - miny
      CompositeOutcome.written cw ch (pasteLoop processOk minx miny abs_paths monitors)

/-! ### Theorems -/

/-- The per-monitor paste loop in closed form: pair consecutive valid
paths with consecutive monitors and keep the paste rectangle of each
successfully processed pair. -/
lemma pasteLoop_zip (processOk : String → Bool) (minx miny : Int)
    (ps : List String) (ms : List Monitor) :
    pasteLoop processOk minx miny ps ms =
      (ps.zip ms).filterMap (fun pm =>
        if processOk pm.1 then
          some ⟨pm.2.x - minx, pm.2.y - miny, pm.2.w, pm.2.h⟩
        else none) := by
  induction ps generalizing ms with
  | nil => cases ms <;> simp [pasteLoop]
  | cons p ps ih =>
    cases ms with
    | nil => simp [pasteLoop]
    | cons m ms =>
      by_cases h : processOk p <;> simp [pasteLoop, h, ih]

/-- The compositor on a non-empty monitor list with at least one existing
path: the canvas is the bounding box of the monitor union and the pastes
are given by the paste loop in closed form. -/
lemma compose_eq_written (pe pok : String → Bool) (monitors : List Monitor)
    (paths : List String) (hm : monitors ≠ []) (hp : paths.filter pe ≠ []) :
    set_wallpaper_multi_monitor pe pok monitors paths =
      CompositeOutcome.written
        (maxList (monitors.map fun mm => mm.x + mm.w) -
          minList (monitors.map fun mm => mm.x))
        (maxList (monitors.map fun mm => mm.y + mm.h) -
          minList (monitors.map fun mm => mm.y))
        (((paths.filter pe).zip monitors).filterMap fun pm =>
          if pok pm.1 then
            some ⟨pm.2.x - minList (monitors.map fun mm => mm.x),
                  pm.2.y - minList (monitors.map fun mm => mm.y),
                  pm.2.w, pm.2.h⟩
          else none) := by
  have hpaths : paths ≠ [] := by
    intro h
    rw [h] at hp
    exact hp rfl
  have e1 : paths.isEmpty = false := by
    cases paths with
    | nil => exact absurd rfl hpaths
    | cons a l => rfl
  have e2 : monitors.isEmpty = false := by
    cases monitors with
    | nil => exact absurd rfl hm
    | cons a l => rfl
  have e3 : (paths.filter pe).isEmpty = false := by
    cases hh : paths.filter pe with
    | nil => exact absurd hh hp
    | cons a l => rfl
  rw [set_wallpaper_multi_monitor]
  simp only [e1, e2, e3, Bool.false_eq_true, if_false]
  rw [pasteLoop_zip]

/-- C2 counterexample: a plugin that exits 0 and prints a primary output
that decodes as a non-dict JSON value (here the integer 42) makes the
one-shot adapter return that value — not a result dictionary and not an
error dictionary — and the streaming adapter yield it as the terminal
item, refuting the claim that the adapter always returns a result
dictionary (an output that is not a result blob becoming a status-error
dictionary). -/
theorem c2_adapter_counterexample :
    isDict (execute_plugin
      (fun s => if s = "fortytwo" then some (PyObj.other "42") else none)
      true ⟨0, "fortytwo", "diag"⟩) = false ∧
    (execute_plugin_stream
      (fun s => if s = "fortytwo" then some (PyObj.other "42") else none)
      true ⟨0, "fortytwo", "diag"⟩).getLast? =
      some (StreamItem.result (PyObj.other "42")) := by
  constructor
  · decide
  · decide

/-- C2 amended: whenever the spawned process exits non-zero, or its
primary output fails to decode (including empty output), both adapter
modes return a dictionary with status `error` without raising — the
one-shot mode carrying the captured stderr under `logs`, the streaming
mode having already yielded every stderr line before the terminal error
dictionary. (When the output decodes to a non-dict JSON value, the
adapter instead returns that value as is.) -/
theorem c2_adapter_error_amended (parse : String → Option PyObj) (proc : ProcOut)
    (h : proc.returncode ≠ 0 ∨ parse proc.stdout = none) :
    (∃ fields, execute_plugin parse true proc = PyObj.pdict fields ∧
      getField fields "status" = some "error" ∧
      getField fields "logs" = some proc.stderr) ∧
    (∃ fields, execute_plugin_stream parse true proc =
        (readLines proc.stderr).map (fun l => StreamItem.line (pyStrip l)) ++
          [StreamItem.result (PyObj.pdict fields)] ∧
      getField fields "status" = some "error") := by
  by_cases hrc : proc.returncode = 0
  · have hp : parse proc.stdout = none := by
      rcases h with h | h
      · exact absurd hrc h
      · exact h
    constructor
    · refine ⟨[("status", "error"), ("message", "Invalid output: " ++ proc.stdout),
        ("logs", proc.stderr), ("raw_output", proc.stdout)], ?_, rfl, rfl⟩
      simp [execute_plugin, hrc, hp]
    · refine ⟨[("status", "error"), ("message", "Invalid JSON output: " ++ proc.stdout),
        ("logs", "See above logs")], ?_, rfl⟩
      simp [execute_plugin_stream, hrc, hp]
  · constructor
    · refine ⟨[("status", "error"), ("message", "Execution failed: " ++ proc.stderr),
        ("logs", proc.stderr)], ?_, rfl, rfl⟩
      simp [execute_plugin, hrc]
    · refine ⟨[("status", "error"),
        ("message", "Plugin execution failed with code " ++ intToStr proc.returncode),
        ("logs", "See above logs")], ?_, rfl⟩
      simp [execute_plugin_stream, hrc]

/-- Witness for the amended C2 at Scenario C: the plugin exits 1 with
empty primary output; both modes produce a status-error dictionary. -/
theorem c2_adapter_error_amended_witness :
    (∃ fields, execute_plugin (fun _ => none) true ⟨1, "", "boom"⟩ = PyObj.pdict fields ∧
      getField fields "status" = some "error" ∧
      getField fields "logs" = some "boom") ∧
    (∃ fields, execute_plugin_stream (fun _ => none) true ⟨1, "", "boom"⟩ =
        (readLines "boom").map (fun l => StreamItem.line (pyStrip l)) ++
          [StreamItem.result (PyObj.pdict fields)] ∧
      getField fields "status" = some "error") :=
  c2_adapter_error_amended (fun _ => none) ⟨1, "", "boom"⟩ (Or.inl (by decide))

/-- C3 counterexample: the line `::PROGRESS:: 150 :: over` carries a
well-formed integer percent field and a message, and the handler emits
`progress 150 "over"` — a percent outside [0,100], refuting the claim
that emitted percents lie in [0,100] (no range check exists in the
code). -/
theorem c3_progress_counterexample :
    handleLogLine "::PROGRESS:: 150 :: over" =
      [Event.log "::PROGRESS:: 150 :: over", Event.progress 150 "over"] ∧
    ¬((150 : Int) ≤ 100) := by
  constructor
  · decide
  · decide

/-- C3 amended: every diagnostic line is emitted as a log event first; a
line containing `::PROGRESS::` that splits into at least four `::`
fields with an integer third field emits exactly one progress event
carrying the parsed integer (which is not range-checked and may lie
outside [0,100]) and the stripped fourth field; progress events arise
only that way, image-saved events only from `::IMAGE_SAVED::` lines with
the stripped trailing text; processing is per line, so a malformed line
never disturbs other lines; and the Scenario B stream yields
Progress(42, "halfway"), ArtifactSaved(/tmp/x.jpg) and the final success
result with the announced path. -/
theorem c3_stream_events_amended (line : String) (p : Int)
    (hmarker : pyContains line "::PROGRESS::" = true)
    (hlen : 4 ≤ (pySplit line "::").length)
    (hint : pyInt ((pySplit line "::").getD 2 "") = some p) :
    handleLogLine line =
      Event.log line ::
        Event.progress p (pyStrip ((pySplit line "::").getD 3 "")) ::
          (if pyContains line "::IMAGE_SAVED::" then parseImageSavedLine line else []) ∧
    (∀ l q msg, Event.progress q msg ∈ handleLogLine l →
      pyContains l "::PROGRESS::" = true ∧ 4 ≤ (pySplit l "::").length ∧
      pyInt ((pySplit l "::").getD 2 "") = some q ∧
      msg = pyStrip ((pySplit l "::").getD 3 "")) ∧
    (∀ l, (handleLogLine l).head? = some (Event.log l)) ∧
    (∀ l path, Event.imageSaved path ∈ handleLogLine l →
      pyContains l "::IMAGE_SAVED::" = true ∧
      path = pyStrip ((pySplit l "::IMAGE_SAVED::").getD 1 "")) ∧
    (∀ pre l post, handleLogLines (pre ++ l :: post) =
      handleLogLines pre ++ handleLogLine l ++ handleLogLines post) ∧
    runnerLogEvents (execute_plugin_stream
      (fun s => if s = "ok-blob"
        then some (PyObj.pdict [("status", "success"), ("path", "/tmp/x.jpg")]) else none)
      true ⟨0, "ok-blob", "::PROGRESS:: 42 :: halfway\n::IMAGE_SAVED:: /tmp/x.jpg\n"⟩) =
      [Event.log "::PROGRESS:: 42 :: halfway", Event.progress 42 "halfway",
       Event.log "::IMAGE_SAVED:: /tmp/x.jpg", Event.imageSaved "/tmp/x.jpg"] ∧
    runnerFinal (execute_plugin_stream
      (fun s => if s = "ok-blob"
        then some (PyObj.pdict [("status", "success"), ("path", "/tmp/x.jpg")]) else none)
      true ⟨0, "ok-blob", "::PROGRESS:: 42 :: halfway\n::IMAGE_SAVED:: /tmp/x.jpg\n"⟩) =
      some (PyObj.pdict [("status", "success"), ("path", "/tmp/x.jpg")]) := by
  refine ⟨?_, ?_, fun l => rfl, ?_, ?_, by decide, by decide⟩
  · simp only [handleLogLine, parseProgressLine, hmarker, hlen, if_true, ite_true]
    rw [hint]
    rfl
  · intro l q msg hm
    simp only [handleLogLine, List.mem_cons, List.mem_append] at hm
    rcases hm with hm | hm | hm
    · exact absurd hm (by simp)
    · by_cases hc : pyContains l "::PROGRESS::"
      · simp only [hc, if_true] at hm
        rw [parseProgressLine] at hm
        by_cases hl : 4 ≤ (pySplit l "::").length
        · simp only [hl, if_true] at hm
          cases hpi : pyInt ((pySplit l "::").getD 2 "") with
          | none => rw [hpi] at hm; simp at hm
          | some q2 =>
            rw [hpi] at hm
            simp only [List.mem_singleton, Event.progress.injEq] at hm
            obtain ⟨hq, hmsg⟩ := hm
            subst hq
            exact ⟨hc, hl, rfl, hmsg⟩
        · simp [hl] at hm
      · simp [hc] at hm
    · by_cases hc : pyContains l "::IMAGE_SAVED::"
      · simp only [hc, if_true] at hm
        rw [parseImageSavedLine] at hm
        by_cases hl : 2 ≤ (pySplit l "::IMAGE_SAVED::").length
        · simp [hl] at hm
        · simp [hl] at hm
      · simp [hc] at hm
  · intro l path hm
    simp only [handleLogLine, List.mem_cons, List.mem_append] at hm
    rcases hm with hm | hm | hm
    · exact absurd hm (by simp)
    · by_cases hc : pyContains l "::PROGRESS::"
      · simp only [hc, if_true] at hm
        rw [parseProgressLine] at hm
        by_cases hl : 4 ≤ (pySplit l "::").length
        · simp only [hl, if_true] at hm
          cases hpi : pyInt ((pySplit l "::").getD 2 "") with
          | none => rw [hpi] at hm; simp at hm
          | some q2 => rw [hpi] at hm; simp at hm
        · simp [hl] at hm
      · simp [hc] at hm
    · by_cases hc : pyContains l "::IMAGE_SAVED::"
      · simp only [hc, if_true] at hm
        rw [parseImageSavedLine] at hm
        by_cases hl : 2 ≤ (pySplit l "::IMAGE_SAVED::").length
        · simp only [hl, if_true, List.mem_singleton, Event.imageSaved.injEq] at hm
          exact ⟨hc, hm⟩
        · simp [hl] at hm
      · simp [hc] at hm
  · intro pre l post
    induction pre with
    | nil => simp [handleLogLines]
    | cons a as ih => simp [handleLogLines, ih]

/-- Witness for the amended C3 at the Scenario B progress line. -/
theorem c3_stream_events_amended_witness :
    handleLogLine "::PROGRESS:: 42 :: halfway" =
      Event.log "::PROGRESS:: 42 :: halfway" ::
        Event.progress 42
          (pyStrip ((pySplit "::PROGRESS:: 42 :: halfway" "::").getD 3 "")) ::
          (if pyContains "::PROGRESS:: 42 :: halfway" "::IMAGE_SAVED::"
           then parseImageSavedLine "::PROGRESS:: 42 :: halfway" else []) :=
  (c3_stream_events_amended "::PROGRESS:: 42 :: halfway" 42
    (by decide) (by decide) (by decide)).1

/-- C4: for the schedule gate with interval class `daily`, a marker 23
hours old suppresses the run and `run` returns the no-op success naming
the unchanged download directory; a marker 25 hours old lets the run
proceed; `force` lets the run proceed regardless of the marker; and a
missing or corrupt marker is treated as never-run, so the run proceeds. -/
theorem c4_schedule_gate (now t23 t25 : Int) (dir : String) (marker : Marker)
    (h23 : now - t23 = 82800) (h25 : now - t25 = 90000) :
    should_run now "daily" (Marker.stamp t23) = false ∧
    wallhaven_run_gate now "Daily" false (Marker.stamp t23) dir =
      RunOutcome.skipped (PyObj.pdict [("status", "success"), ("path", dir)]) ∧
    should_run now "daily" (Marker.stamp t25) = true ∧
    wallhaven_run_gate now "Daily" true marker dir = RunOutcome.proceeded ∧
    should_run now "daily" Marker.missing = true ∧
    should_run now "daily" Marker.corrupt = true ∧
    wallhaven_run_gate now "Daily" false Marker.missing dir = RunOutcome.proceeded := by
  have hlow : pyLower "Daily" = "daily" := by decide
  have h1 : should_run now "daily" (Marker.stamp t23) = false := by
    simp [should_run, h23]
  have h2 : should_run now "daily" (Marker.stamp t25) = true := by
    simp [should_run, h25]
  refine ⟨h1, ?_, h2, rfl, rfl, rfl, ?_⟩
  · simp [wallhaven_run_gate, hlow, h1]
  · simp [wallhaven_run_gate, hlow, should_run]

/-- Witness for C4 at a concrete clock: now = 200000, markers written at
117200 (23 h earlier) and 110000 (25 h earlier). -/
theorem c4_schedule_gate_witness :
    should_run 200000 "daily" (Marker.stamp 117200) = false ∧
    wallhaven_run_gate 200000 "Daily" false (Marker.stamp 117200) "out" =
      RunOutcome.skipped (PyObj.pdict [("status", "success"), ("path", "out")]) ∧
    should_run 200000 "daily" (Marker.stamp 110000) = true ∧
    wallhaven_run_gate 200000 "Daily" true Marker.corrupt "out" = RunOutcome.proceeded ∧
    should_run 200000 "daily" Marker.missing = true ∧
    should_run 200000 "daily" Marker.corrupt = true ∧
    wallhaven_run_gate 200000 "Daily" false Marker.missing "out" = RunOutcome.proceeded :=
  c4_schedule_gate 200000 117200 110000 "out" Marker.corrupt (by decide) (by decide)

/-- C5 counterexample: with a missing (or unreadable) image path the
very first `add_entry` call raises out of `get_file_hash`'s `open`
before touching the store — its `try` only catches
`sqlite3.IntegrityError` — so the call neither inserts nor returns
`true`/`false`, refuting "for every URL and image path … does not
raise". -/
theorem c5_history_counterexample :
    add_entry (fun s => s) (fun s => s) (fun _ => none) [] "u" "gone.jpg" "src" 0 =
      AddEntryOutcome.raised := by
  decide

/-- C5 amended: for every URL and every image path whose file exists and
is readable, `add_entry` twice with the same URL leaves exactly one row
with the URL's hash — the first call inserts and returns `true`, the
second hits the unique-`url_hash` constraint, returns `false` without
raising, and leaves the store unchanged. (With a missing or unreadable
image path the call instead raises from the uncaught file read.) -/
theorem c5_history_idempotent_amended (hashUrl hashBytes : String → String)
    (readFile : String → Option String) (db : List HRow)
    (url p1 s1 p2 s2 b1 b2 : String) (t1 t2 : Int)
    (h1 : readFile p1 = some b1) (h2 : readFile p2 = some b2)
    (hfresh : db.countP (fun r => r.url_hash == hashUrl url) = 0) :
    ∃ db1,
      add_entry hashUrl hashBytes readFile db url p1 s1 t1 =
        AddEntryOutcome.returned db1 true ∧
      db1.countP (fun r => r.url_hash == hashUrl url) = 1 ∧
      add_entry hashUrl hashBytes readFile db1 url p2 s2 t2 =
        AddEntryOutcome.returned db1 false := by
  have hany : db.any (fun r => r.url_hash == hashUrl url) = false := by
    rw [List.any_eq_false]
    exact List.countP_eq_zero.mp hfresh
  refine ⟨db ++ [⟨hashUrl url, hashBytes b1, s1, t1⟩], ?_, ?_, ?_⟩
  · simp [add_entry, h1, hany]
  · rw [List.countP_append, hfresh]
    simp
  · have hany2 : (db ++ [(⟨hashUrl url, hashBytes b1, s1, t1⟩ : HRow)]).any
        (fun r => r.url_hash == hashUrl url) = true := by
      rw [List.any_eq_true]
      exact ⟨⟨hashUrl url, hashBytes b1, s1, t1⟩, by simp⟩
    simp [add_entry, h2, hany2]

/-- Witness for the amended C5 on an empty store with readable files and
identity hashes. -/
theorem c5_history_idempotent_amended_witness :
    ∃ db1,
      add_entry (fun s => s) (fun s => s) (fun _ => some "BYTES") [] "u" "p1" "s1" 1 =
        AddEntryOutcome.returned db1 true ∧
      db1.countP (fun r => r.url_hash == (fun s : String => s) "u") = 1 ∧
      add_entry (fun s => s) (fun s => s) (fun _ => some "BYTES") db1 "u" "p2" "s2" 2 =
        AddEntryOutcome.returned db1 false :=
  c5_history_idempotent_amended (fun s => s) (fun s => s) (fun _ => some "BYTES") []
    "u" "p1" "s1" "p2" "s2" "BYTES" "BYTES" 1 2 rfl rfl rfl

/-- C6: blacklist round-trip. For an existing image file, adding it by
path puts the hash of its bytes in the store, so `is_blacklisted` on that
hash answers `true`; after removing the hash it answers `false`. -/
theorem c6_blacklist_roundtrip (sha : String → String)
    (readFile thumb : String → Option String) (db : List BRow)
    (p bytes plugin : String) (now : Int)
    (hfile : readFile p = some bytes) :
    is_blacklisted (some (add_to_blacklist sha readFile thumb db none plugin (some p) now))
      (sha bytes) = true ∧
    is_blacklisted
      (some (remove_from_blacklist
        (add_to_blacklist sha readFile thumb db none plugin (some p) now) (sha bytes)))
      (sha bytes) = false := by
  have hadd : add_to_blacklist sha readFile thumb db none plugin (some p) now =
      db.filter (fun r => !(r.img_hash == sha bytes)) ++
        [⟨sha bytes, plugin, now, thumb p⟩] := by
    simp [add_to_blacklist, get_image_hash, hfile]
  constructor
  · rw [hadd, is_blacklisted, List.any_eq_true]
    exact ⟨⟨sha bytes, plugin, now, thumb p⟩, by simp⟩
  · rw [hadd, is_blacklisted, List.any_eq_false]
    intro r hr
    rw [remove_from_blacklist, List.mem_filter] at hr
    simp only [Bool.not_eq_true'] at hr
    simp [hr.2]

/-- Witness for C6 on an empty store with an identity hash oracle. -/
theorem c6_blacklist_roundtrip_witness :
    is_blacklisted (some (add_to_blacklist (fun s => s)
      (fun q => if q = "img.jpg" then some "BYTES" else none) (fun _ => none)
      [] none "manual" (some "img.jpg") 5)) ((fun s : String => s) "BYTES") = true ∧
    is_blacklisted (some (remove_from_blacklist (add_to_blacklist (fun s => s)
      (fun q => if q = "img.jpg" then some "BYTES" else none) (fun _ => none)
      [] none "manual" (some "img.jpg") 5) ((fun s : String => s) "BYTES")))
      ((fun s : String => s) "BYTES") = false :=
  c6_blacklist_roundtrip (fun s => s)
    (fun q => if q = "img.jpg" then some "BYTES" else none) (fun _ => none)
    [] "img.jpg" "BYTES" "manual" 5 (by decide)

/-- C9: the blacklist store is fail-open — a failing store query answers
`false` ("assume not blacklisted") for every hash instead of propagating;
on a healthy store the lookup is exactly the point query for the hash. -/
theorem c9_blacklist_fail_open (h : String) (db : List BRow) :
    is_blacklisted none h = false ∧
    (is_blacklisted (some db) h = true ↔ ∃ r ∈ db, r.img_hash = h) := by
  refine ⟨rfl, ?_⟩
  rw [is_blacklisted, List.any_eq_true]
  simp

/-- C10: `seen_image` on a path that does not exist answers `false`
immediately, for every content-hash function and every store — including
a store that already records the hash of the file's former bytes. -/
theorem c10_seen_image_missing (readFile : String → Option String) (p : String)
    (hmiss : readFile p = none) :
    ∀ (hashBytes : String → String) (db : List HRow),
      seen_image readFile hashBytes db p = false := by
  intro hashBytes db
  rw [seen_image, hmiss]

/-- Witness for C10: the file is gone but its old bytes' hash is in the
store; the lookup still answers `false`. -/
theorem c10_seen_image_missing_witness :
    seen_image (fun _ => none) (fun s => s) [⟨"u", "BYTES", "src", 0⟩] "gone.jpg" = false :=
  c10_seen_image_missing (fun _ => none) "gone.jpg" rfl (fun s => s)
    [⟨"u", "BYTES", "src", 0⟩]

/-- C7: the compositor canvas is the bounding rectangle of the union of
the monitor rectangles, and every processed image is pasted at offset
(monitorX − canvasMinX, monitorY − canvasMinY) at the monitor's exact
size; in particular a single monitor gives a canvas of exactly its own
size, and two equal-height side-by-side monitors give a canvas of the
summed widths and the shared height. -/
theorem c7_compositor_canvas (pe pok : String → Bool) (m m1 m2 : Monitor)
    (p p1 p2 : String)
    (hpe : pe p = true) (hpok : pok p = true)
    (hpe1 : pe p1 = true) (hpok1 : pok p1 = true)
    (hpe2 : pe p2 = true) (hpok2 : pok p2 = true)
    (hx : m2.x = m1.x + m1.w) (hy : m2.y = m1.y) (hh : m2.h = m1.h)
    (hw1 : 0 ≤ m1.w) (hw2 : 0 ≤ m2.w) :
    set_wallpaper_multi_monitor pe pok [m] [p] =
      CompositeOutcome.written m.w m.h [⟨0, 0, m.w, m.h⟩] ∧
    set_wallpaper_multi_monitor pe pok [m1, m2] [p1, p2] =
      CompositeOutcome.written (m1.w + m2.w) m1.h
        [⟨0, 0, m1.w, m1.h⟩, ⟨m1.w, 0, m2.w, m2.h⟩] ∧
    (∀ (monitors : List Monitor) (paths : List String),
      monitors ≠ [] → paths.filter pe ≠ [] →
      set_wallpaper_multi_monitor pe pok monitors paths =
        CompositeOutcome.written
          (maxList (monitors.map fun mm => mm.x + mm.w) -
            minList (monitors.map fun mm => mm.x))
          (maxList (monitors.map fun mm => mm.y + mm.h) -
            minList (monitors.map fun mm => mm.y))
          (((paths.filter pe).zip monitors).filterMap fun pm =>
            if pok pm.1 then
              some ⟨pm.2.x - minList (monitors.map fun mm => mm.x),
                    pm.2.y - minList (monitors.map fun mm => mm.y),
                    pm.2.w, pm.2.h⟩
            else none)) := by
  refine ⟨?_, ?_, fun monitors paths hm hp => compose_eq_written pe pok monitors paths hm hp⟩
  · rw [compose_eq_written pe pok [m] [p] (by simp) (by simp [hpe])]
    simp only [List.map_cons, List.map_nil, minList, maxList, List.foldl_nil,
      List.filter_cons, hpe, if_true, List.filter_nil, List.zip_cons_cons,
      List.zip_nil_right, List.filterMap_cons, List.filterMap_nil, hpok]
    simp only [CompositeOutcome.written.injEq, List.cons.injEq, Paste.mk.injEq, and_true]
    omega
  · rw [compose_eq_written pe pok [m1, m2] [p1, p2] (by simp) (by simp [hpe1])]
    simp only [List.map_cons, List.map_nil, minList, maxList, List.foldl_cons,
      List.foldl_nil, List.filter_cons, hpe1, hpe2, if_true, List.filter_nil,
      List.zip_cons_cons, List.zip_nil_right, List.filterMap_cons,
      List.filterMap_nil, hpok1, hpok2]
    simp only [CompositeOutcome.written.injEq, List.cons.injEq, Paste.mk.injEq, and_true]
    omega

/-- Witness for C7: a single monitor at (5,7) of size 100×50 yields a
100×50 canvas with one paste at the origin. -/
theorem c7_compositor_canvas_witness :
    set_wallpaper_multi_monitor (fun _ => true) (fun _ => true)
      [⟨5, 7, 100, 50⟩] ["a"] =
      CompositeOutcome.written 100 50 [⟨0, 0, 100, 50⟩] :=
  (c7_compositor_canvas (fun _ => true) (fun _ => true)
    ⟨5, 7, 100, 50⟩ ⟨0, 0, 100, 50⟩ ⟨100, 0, 120, 50⟩ "a" "b" "c"
    rfl rfl rfl rfl rfl rfl (by decide) (by decide) (by decide)
    (by decide) (by decide)).1

/-- C8 counterexample: one candidate path that exists on disk but fails
image processing leaves zero images successfully placed, yet the
compositor still saves and applies the (all-blank) canvas — the outcome
is `written` with an empty paste list, not a hard failure, refuting the
claim that zero successfully placed images writes no output file. -/
theorem c8_composite_counterexample :
    set_wallpaper_multi_monitor (fun _ => true) (fun _ => false)
      [⟨0, 0, 100, 50⟩] ["corrupt.img"] =
      CompositeOutcome.written 100 50 [] := by
  decide

/-- C8 amended: a failure to process one candidate is skipped, leaving
only that monitor's area blank while every other pair is still pasted
(the paste list keeps exactly the successfully processed pairs); when no
provided path exists on disk the composite is a hard failure with
nothing written; but when at least one path exists the canvas is saved
and applied even if zero images were successfully placed. -/
theorem c8_composite_amended (pe pok : String → Bool)
    (monitors : List Monitor) (paths : List String)
    (hm : monitors ≠ []) (hp : paths.filter pe ≠ []) :
    (∀ paths2 : List String, paths2.filter pe = [] →
      ∃ msg, set_wallpaper_multi_monitor pe pok monitors paths2 =
        CompositeOutcome.failed msg) ∧
    (∃ cw ch, set_wallpaper_multi_monitor pe pok monitors paths =
      CompositeOutcome.written cw ch
        (((paths.filter pe).zip monitors).filterMap fun pm =>
          if pok pm.1 then
            some ⟨pm.2.x - minList (monitors.map fun mm => mm.x),
                  pm.2.y - minList (monitors.map fun mm => mm.y),
                  pm.2.w, pm.2.h⟩
          else none)) := by
  constructor
  · intro paths2 h2
    rw [set_wallpaper_multi_monitor]
    by_cases he : paths2.isEmpty
    · exact ⟨"no image paths provided", by simp [he]⟩
    · refine ⟨"no valid image paths found", ?_⟩
      have e2 : (paths2.filter pe).isEmpty = true := by
        rw [h2]
        rfl
      simp [he, e2]
  · exact ⟨_, _, compose_eq_written pe pok monitors paths hm hp⟩

/-- Witness for the amended C8: one monitor, one existing path whose
processing fails; the outcome is a written canvas with an empty paste
list. -/
theorem c8_composite_amended_witness :
    ∃ cw ch, set_wallpaper_multi_monitor (fun _ => true) (fun _ => false)
      [⟨0, 0, 100, 50⟩] ["x"] =
      CompositeOutcome.written cw ch
        (((["x"].filter (fun _ => true)).zip [(⟨0, 0, 100, 50⟩ : Monitor)]).filterMap
          fun pm =>
            if (fun _ : String => false) pm.1 then
              some ⟨pm.2.x - minList ([(⟨0, 0, 100, 50⟩ : Monitor)].map fun mm => mm.x),
                    pm.2.y - minList ([(⟨0, 0, 100, 50⟩ : Monitor)].map fun mm => mm.y),
                    pm.2.w, pm.2.h⟩
            else none) :=
  (c8_composite_amended (fun _ => true) (fun _ => false) [⟨0, 0, 100, 50⟩] ["x"]
    (by decide) (by decide)).2

/-- A list element at an in-range index retrieved with a default is a
member of the list. -/
lemma getD_mem_of_lt (l : List String) (k : Nat) (hk : k < l.length) :
    l.getD k "" ∈ l := by
  induction l generalizing k with
  | nil => simp at hk
  | cons a as ih =>
    cases k with
    | zero => exact List.mem_cons_self a as
    | succ n =>
      rw [List.getD_cons_succ]
      exact List.mem_cons_of_mem a (ih n (by simpa using hk))

/-- Every member of a list is retrieved by some in-range index. -/
lemma mem_exists_getD (l : List String) (c : String) (h : c ∈ l) :
    ∃ k, k < l.length ∧ l.getD k "" = c := by
  induction l with
  | nil => cases h
  | cons a as ih =>
    rcases List.mem_cons.mp h with rfl | hmem
    · exact ⟨0, by simp, rfl⟩
    · obtain ⟨k, hk, he⟩ := ih hmem
      exact ⟨k + 1, by simpa using Nat.succ_lt_succ hk, by simpa using he⟩

/-- A source yields a candidate exactly when its candidate set is
non-empty. -/
lemma select_isSome_eq (fs : FS) (choose : List String → Nat) (s : String) :
    (selectCandidateFromSource fs choose s).isSome = !(candidatesOf fs s).isEmpty := by
  rw [selectCandidateFromSource, candidatesOf]
  by_cases hf : fs.isFile s
  · simp only [hf, if_true]
    by_cases hi : is_image_file fs s <;> simp [hi]
  · simp only [hf, Bool.false_eq_true, if_false]
    by_cases hd : fs.isDir s
    · simp only [hd, if_true]
      cases he : fs.entries s with
      | none => simp
      | some es =>
        simp only [Option.getD_some]
        by_cases hc : (es.filter (is_image_file fs)).isEmpty <;> simp [hc]
    · simp [hd]

/-- The returned candidate belongs to the scanned source's candidate
set. -/
lemma select_mem {fs : FS} {choose : List String → Nat} {s c : String}
    (h : selectCandidateFromSource fs choose s = some c) : c ∈ candidatesOf fs s := by
  rw [selectCandidateFromSource] at h
  rw [candidatesOf]
  by_cases hf : fs.isFile s
  · simp only [hf, if_true] at h ⊢
    by_cases hi : is_image_file fs s
    · simp only [hi, if_true] at h ⊢
      cases h
      exact List.mem_singleton.mpr rfl
    · simp [hi] at h
  · simp only [hf, Bool.false_eq_true, if_false] at h ⊢
    by_cases hd : fs.isDir s
    · simp only [hd, if_true] at h ⊢
      cases he : fs.entries s with
      | none => rw [he] at h; cases h
      | some es =>
        rw [he] at h
        simp only [Option.getD_some]
        by_cases hc : (es.filter (is_image_file fs)).isEmpty
        · simp [hc] at h
        · simp only [hc, Bool.false_eq_true, if_false, Option.some.injEq] at h
          subst h
          have hpos : 0 < (es.filter (is_image_file fs)).length := by
            cases hh : es.filter (is_image_file fs) with
            | nil => rw [hh] at hc; exact absurd rfl hc
            | cons a l => simp
          exact getD_mem_of_lt _ _ (Nat.mod_lt _ hpos)
    · simp [hd] at h

/-- Every candidate of a source is returned by some choice function:
with a file source the file itself is returned regardless of the choice,
and with a directory source the index of the candidate selects it. -/
lemma select_surjective (fs : FS) (s c : String) (h : c ∈ candidatesOf fs s) :
    ∃ k, selectCandidateFromSource fs (fun _ => k) s = some c := by
  rw [candidatesOf] at h
  by_cases hf : fs.isFile s
  · simp only [hf, if_true] at h
    by_cases hi : is_image_file fs s
    · simp only [hi, if_true, List.mem_singleton] at h
      subst h
      exact ⟨0, by simp [selectCandidateFromSource, hf, hi]⟩
    · simp [hi] at h
  · simp only [hf, Bool.false_eq_true, if_false] at h
    by_cases hd : fs.isDir s
    · simp only [hd, if_true] at h
      cases he : fs.entries s with
      | none => rw [he] at h; cases h
      | some es =>
        rw [he] at h
        simp only [Option.getD_some] at h
        obtain ⟨k, hk, hke⟩ := mem_exists_getD _ _ h
        have hc : (es.filter (is_image_file fs)).isEmpty = false := by
          cases hh : es.filter (is_image_file fs) with
          | nil => rw [hh] at h; cases h
          | cons a l => rfl
        refine ⟨k, ?_⟩
        rw [selectCandidateFromSource]
        simp only [hf, Bool.false_eq_true, if_false, hd, if_true, he]
        simp only [hc, Bool.false_eq_true, if_false, Option.some.injEq]
        rw [Nat.mod_eq_of_lt hk]
        exact hke
    · simp [hd] at h

/-- If some member of a list satisfies the predicate, `find?` returns a
result. -/
lemma find?_isSome_of_mem {α : Type} (p : α → Bool) {l : List α} {a : α}
    (ha : a ∈ l) (hp : p a = true) : ∃ b, l.find? p = some b := by
  induction l with
  | nil => cases ha
  | cons x xs ih =>
    by_cases hx : p x
    · exact ⟨x, List.find?_cons_of_pos _ hx⟩
    · rcases List.mem_cons.mp ha with rfl | hmem
      · exact absurd hp hx
      · obtain ⟨b, hb⟩ := ih hmem
        exact ⟨b, by rw [List.find?_cons_of_neg _ hx, hb]⟩

/-- When each element's success under `f` is characterised by the
predicate `p`, the first `f`-success is `f` of the first `p`-hit. -/
lemma findSome?_eq_of_find? {α β : Type} (f : α → Option β) (p : α → Bool)
    (hfp : ∀ a, (f a).isSome = p a) :
    ∀ {l : List α} {a : α}, l.find? p = some a → l.findSome? f = f a := by
  intro l
  induction l with
  | nil => intro a h; simp [List.find?] at h
  | cons x xs ih =>
    intro a h
    by_cases hx : p x
    · rw [List.find?_cons_of_pos _ hx] at h
      cases h
      exact List.findSome?_cons_of_isSome _ (by rw [hfp]; exact hx)
    · rw [List.find?_cons_of_neg _ hx] at h
      rw [List.findSome?_cons_of_isNone _ ?_]
      · exact ih h
      · have := hfp x
        rw [Option.isNone_iff_eq_none, ← Option.not_isSome_iff_eq_none, this]
        exact hx

/-- C1: under any permutation produced by the shuffle and any choice
function, when at least one existing source yields at least one
candidate, selection succeeds and returns exactly a candidate of the
first candidate-yielding source in shuffled order — a path belonging to
one of the given sources — and every candidate of that first source is
returned under some choice, so the pick ranges over (and only over) that
single source's candidates, never pooling sources. -/
theorem c1_fair_selection (fs : FS) (shuffle : List String → List String)
    (choose : List String → Nat) (sources : List String)
    (hperm : (shuffle (gatherValidSources fs sources)).Perm (gatherValidSources fs sources))
    (hex : ∃ s ∈ sources, fs.pathExists s = true ∧ candidatesOf fs s ≠ []) :
    ∃ first c,
      (shuffle (gatherValidSources fs sources)).find?
        (fun s => !(candidatesOf fs s).isEmpty) = some first ∧
      getRandomImageFromSources fs shuffle choose sources = some c ∧
      c ∈ candidatesOf fs first ∧
      (∃ s ∈ sources, fs.pathExists s = true ∧ c ∈ candidatesOf fs s) ∧
      (∀ c2 ∈ candidatesOf fs first, ∃ k,
        getRandomImageFromSources fs shuffle (fun _ => k) sources = some c2) := by
  obtain ⟨s0, hs0mem, hs0pe, hs0c⟩ := hex
  have hs0valid : s0 ∈ gatherValidSources fs sources :=
    List.mem_filter.mpr ⟨hs0mem, hs0pe⟩
  have hs0shuf : s0 ∈ shuffle (gatherValidSources fs sources) :=
    hperm.mem_iff.mpr hs0valid
  have hps0 : (fun s => !(candidatesOf fs s).isEmpty) s0 = true := by
    have : (candidatesOf fs s0).isEmpty = false := by
      cases hh : candidatesOf fs s0 with
      | nil => exact absurd hh hs0c
      | cons a l => rfl
    simp [this]
  obtain ⟨first, hfind⟩ :=
    find?_isSome_of_mem (fun s => !(candidatesOf fs s).isEmpty) hs0shuf hps0
  have hpfirst := List.find?_some hfind
  have hfirstmem : first ∈ shuffle (gatherValidSources fs sources) :=
    List.mem_of_find?_eq_some hfind
  have hfirstvalid : first ∈ gatherValidSources fs sources := hperm.mem_iff.mp hfirstmem
  have hfirstsrc := List.mem_filter.mp hfirstvalid
  have hvalidne : (gatherValidSources fs sources).isEmpty = false := by
    cases hh : gatherValidSources fs sources with
    | nil => rw [hh] at hs0valid; cases hs0valid
    | cons a l => rfl
  have hsel : (selectCandidateFromSource fs choose first).isSome = true := by
    rw [select_isSome_eq]
    exact hpfirst
  obtain ⟨c, hc⟩ := Option.isSome_iff_exists.mp hsel
  have hmain : getRandomImageFromSources fs shuffle choose sources = some c := by
    rw [getRandomImageFromSources]
    simp only [hvalidne, Bool.false_eq_true, if_false]
    rw [findSome?_eq_of_find? _ _ (select_isSome_eq fs choose) hfind, hc]
  refine ⟨first, c, hfind, hmain, select_mem hc,
    ⟨first, hfirstsrc.1, hfirstsrc.2, select_mem hc⟩, ?_⟩
  intro c2 hc2
  obtain ⟨k, hk⟩ := select_surjective fs first c2 hc2
  refine ⟨k, ?_⟩
  rw [getRandomImageFromSources]
  simp only [hvalidne, Bool.false_eq_true, if_false]
  rw [findSome?_eq_of_find? _ _ (select_isSome_eq fs (fun _ => k)) hfind, hk]

/-- Witness for C1 at Scenario A: a directory source with two images
(plus one non-image) and a single-file source; the identity shuffle and
the first-index choice produce an existing image path from one of the
two sources. -/
theorem c1_fair_selection_witness :
    ∃ first c,
      (id (gatherValidSources fsTwoSources ["dirA", "b.jpg"])).find?
        (fun s => !(candidatesOf fsTwoSources s).isEmpty) = some first ∧
      getRandomImageFromSources fsTwoSources id (fun _ => 0) ["dirA", "b.jpg"] = some c ∧
      c ∈ candidatesOf fsTwoSources first ∧
      (∃ s ∈ ["dirA", "b.jpg"], fsTwoSources.pathExists s = true ∧
        c ∈ candidatesOf fsTwoSources s) ∧
      (∀ c2 ∈ candidatesOf fsTwoSources first, ∃ k,
        getRandomImageFromSources fsTwoSources id (fun _ => k) ["dirA", "b.jpg"] = some c2) :=
  c1_fair_selection fsTwoSources id (fun _ => 0) ["dirA", "b.jpg"]
    (List.Perm.refl _) ⟨"dirA", by decide, by decide, by decide⟩

end ClockworkOrange
